import Mathlib

/- Verification of the hybrid retrieval engine of this repository.
   The Python sources embedded here are:
   - src/similarity_api.py  (ad-hoc top-3 deployment, endpoint get_similarity)
   - src/rag_api.py         (fixed knowledge-base deployment, endpoint search,
                             plus get_embeddings and cosine_similarity)
   - src/function_caller_api.py (template extraction, endpoint execute_function_call)
   Machine floats are modelled by rationals; the remote embedding provider and
   Python's process-seeded PRNG are modelled as explicit parameters, since their
   outputs are not derivable from the program text. -/

namespace DevSync

/-! ## A stable insertion sort

Python's `list.sort` and numpy's argsort (as observed on these small inputs) are
stable sorts.  `insertS r x l` inserts `x` before the first element `y` of `l`
with `r x y`; `sortS` is the induced insertion sort.  With `r x y` chosen as
"`x` may come before `y`" (non-strict comparison), a tie keeps the earlier
element first, i.e. the sort is stable. -/

def insertS (r : α → α → Bool) (x : α) : List α → List α
  | [] => [x]
  | y :: ys => if r x y then x :: y :: ys else y :: insertS r x ys

def sortS (r : α → α → Bool) : List α → List α
  | [] => []
  | x :: xs => insertS r x (sortS r xs)

/-! ## src/similarity_api.py

`get_similarity` (lines 48-70): guard `not request.docs or not request.query`
raises HTTP 400; otherwise one `get_embedding` call per document and one for the
query, then `np.argsort(similarities)[-3:][::-1]` picks the top 3 indices and
`request.docs[i]` maps them back to documents.  Cosine scores of real provider
embeddings are abstracted as a score assignment `score : Nat → ℚ` (one score per
document index, the value of `cosine_similarity([query_embedding],
doc_embeddings)[0][i]`). -/

/-- `get_embedding` (lines 32-39) does `text.replace("\n", " ")` before the
provider call (written on the character list so that it evaluates). -/
def cleanText (t : String) : String :=
  String.mk (t.data.map (fun c => if c = '\n' then ' ' else c))

/-- The list of `input` batches sent to the embedding provider by one
`get_similarity` request (lines 53-59): nothing on the guard path, otherwise
one singleton batch per document (`[get_embedding(doc) for doc in
request.docs]`) followed by one singleton batch for the query. -/
def get_similarity_calls (docs : List String) (query : String) : List (List String) :=
  if docs = [] ∨ query = "" then []
  else docs.map (fun d => [cleanText d]) ++ [[cleanText query]]

/-- Ascending comparison used by `np.argsort` on the score array, acting on
(index, score) pairs. -/
def ascRel (a b : Nat × ℚ) : Bool := decide (a.2 ≤ b.2)

/-- The (index, score) pairs of `similarities`, stably sorted ascending by
score: the internal view of `np.argsort(similarities)` (line 65). -/
def argsortPairs (scores : List ℚ) : List (Nat × ℚ) :=
  sortS ascRel scores.enum

/-- `np.argsort(similarities)`: indices of the scores in ascending score
order. -/
def argsortAsc (scores : List ℚ) : List Nat :=
  (argsortPairs scores).map (fun p => p.1)

/-- `top_3_indices = np.argsort(similarities)[-3:][::-1]` (line 65): the Python
slice `[-3:]` keeps the last `min 3 n` entries, `[::-1]` reverses them. -/
def top3Indices (scores : List ℚ) : List Nat :=
  ((argsortAsc scores).drop ((argsortAsc scores).length - 3)).reverse

/-- Same slice-and-reverse applied to the (index, score) pairs; used to reason
about the scores attached to the returned indices. -/
def top3Pairs (scores : List ℚ) : List (Nat × ℚ) :=
  ((argsortPairs scores).drop ((argsortPairs scores).length - 3)).reverse

/-- `get_similarity` (lines 48-70): HTTP 400 on empty docs or query, else the
contents of the top-3 documents (`request.docs[i]` for the selected indices).
The error side of `Except` carries the HTTP status code. -/
def get_similarity (docs : List String) (query : String) (score : Nat → ℚ) :
    Except Nat (List String) :=
  if docs = [] ∨ query = "" then .error 400
  else .ok ((top3Indices ((List.range docs.length).map score)).map
    (fun i => docs.getD i ""))

/-! ## src/rag_api.py -/

/-- A knowledge-base entry `{content, source}` (lines 26-47). -/
structure Doc where
  content : String
  source : String
deriving DecidableEq

/-- `KNOWLEDGE_BASE` (lines 26-47), verbatim. -/
def KNOWLEDGE_BASE : List Doc :=
  [⟨"The fat arrow syntax is affectionately called the fat arrow (because -> is a thin arrow and => is a fat arrow). The fat arrow is also called a lambda function.",
    "TypeScript Book - Arrow Functions"⟩,
   ⟨"The !! operator converts any value into an explicit boolean. The first ! converts to boolean and inverts the logic, the second ! inverts it back.",
    "TypeScript Book - Operators"⟩,
   ⟨"TypeScript has type inference which means you don\x27t always need to annotate types. The compiler can infer types from usage.",
    "TypeScript Book - Type Inference"⟩,
   ⟨"Interfaces in TypeScript are used to define the structure of objects. They are a powerful way of defining contracts within your code.",
    "TypeScript Book - Interfaces"⟩,
   ⟨"The any type is the super type of all types in TypeScript. Using any effectively opts out of type checking.",
    "TypeScript Book - Types"⟩]

/-- `KNOWLEDGE_BASE[i]`. -/
def kbDoc (i : Nat) : Doc := KNOWLEDGE_BASE.getD i ⟨"", ""⟩

/-- The `SearchResponse` model (lines 20-22); `sources` is always set by
`search`, so it is a plain string here. -/
structure SearchResponse where
  answer : String
  sources : String
deriving DecidableEq

/-- Python's substring test `needle in hay` on explicit character lists. -/
def hasSub (nd : List Char) : List Char → Bool
  | [] => nd.isEmpty
  | c :: cs => nd.isPrefixOf (c :: cs) || hasSub nd cs

/-- Python's `needle in hay` for strings. -/
def isSubstr (needle hay : String) : Bool := hasSub needle.data hay.data

/-- Python's `q.lower()` (ASCII, as in the queries and keywords concerned);
written on the character list so that it evaluates. -/
def lowerStr (s : String) : String := String.mk (s.data.map Char.toLower)

/-- The keyword-rule dispatch of `search` (lines 92-105): the three
`if`/`elif` branches, in source order, first match wins; `none` means the
embedding fallback is taken. -/
def ruleMatch (q : String) : Option Doc :=
  let ql := lowerStr q
  if (isSubstr "=>" q || isSubstr "fat arrow" ql) &&
     (isSubstr "call" ql || isSubstr "affectionately" ql || isSubstr "syntax" ql) then
    some (kbDoc 0)
  else if isSubstr "!!" q ||
      (isSubstr "boolean" ql && (isSubstr "convert" ql || isSubstr "explicit" ql)) then
    some (kbDoc 1)
  else if isSubstr "=>" q || isSubstr "fat arrow" ql then
    some (kbDoc 0)
  else
    none

/-- Descending comparison used by `similarities.sort(key=lambda x: x[1],
reverse=True)` on the (index, score, document) triples. -/
def descRel (a b : Nat × ℚ × Doc) : Bool := decide (b.2.1 ≤ a.2.1)

/-- The `similarities` list of `search` (lines 115-118):
`(i, similarity, KNOWLEDGE_BASE[i])` for each document, with the similarity of
document `i` against the query abstracted as `score i`. -/
def ragTriples (score : Nat → ℚ) : List (Nat × ℚ × Doc) :=
  KNOWLEDGE_BASE.enum.map (fun p => (p.1, score p.1, p.2))

/-- `similarities.sort(key=lambda x: x[1], reverse=True)` (line 121): a stable
descending sort on the score component. -/
def ragSorted (score : Nat → ℚ) : List (Nat × ℚ × Doc) :=
  sortS descRel (ragTriples score)

/-- `search` (lines 85-129).  Returns the response together with the list of
`input` batches sent to the embedding provider: `[]` on the rule branches, and
the single batch `[q] + [doc["content"] for doc in KNOWLEDGE_BASE]` (lines
108-109) on the fallback branch, whose best match is the head of the sorted
`similarities`. -/
def search (score : Nat → ℚ) (q : String) : SearchResponse × List (List String) :=
  match ruleMatch q with
  | some d => ({ answer := d.content, sources := d.source }, [])
  | none =>
    let allTexts := q :: KNOWLEDGE_BASE.map (fun d => d.content)
    let best := ((ragSorted score).headD (0, 0, ⟨"", ""⟩)).2.2
    ({ answer := best.content, sources := best.source }, [allTexts])

/-! ## cosine_similarity (src/rag_api.py lines 78-82)

`np.dot(v1, v2) / (np.linalg.norm(v1) * np.linalg.norm(v2))` with no input
checking.  On 1-d arrays of unequal length `np.dot` raises a shape ValueError
(`shapeError` below).  When either vector is all zeros the denominator is `0`
and the numerator is necessarily `0` as well, so IEEE evaluation yields
`0.0/0.0 = NaN`, returned as a value (`nan` below) — nothing is raised.
Otherwise the value is `num / sqrt den2`; since the square root is irrational
the finite result is represented by the pair `val num den2`. -/

def dotL (v w : List ℚ) : ℚ := (List.zipWith (· * ·) v w).sum

inductive CosOutcome where
  | val : ℚ → ℚ → CosOutcome
  | nan : CosOutcome
  | shapeError : CosOutcome
deriving DecidableEq

def cosine_similarity (v1 v2 : List ℚ) : CosOutcome :=
  if v1.length ≠ v2.length then .shapeError
  else if dotL v1 v1 = 0 ∨ dotL v2 v2 = 0 then .nan
  else .val (dotL v1 v2) (dotL v1 v1 * dotL v2 v2)

/-! ## get_embeddings, mock branch (src/rag_api.py lines 49-61)

`random.seed(hash(str(texts)) % (2**32))` seeds the PRNG once from the whole
batch, then for each text (`for _ in texts` — the text itself is not read) the
next 1536 draws of `random.uniform(-1, 1)` form its vector, which is then
L2-normalized.  Python's `hash` of a string (process-keyed SipHash) enters as
the parameter `bhash`, and the seeded draw sequence (Mersenne Twister) as the
parameter `stream : seed → draw index → value`.  Normalization divides by the
(irrational, positive) L2 norm, so the model returns the raw draws and
`sameUnit` states that two raw vectors normalize to the same unit vector:
they are positive scalar multiples of one another. -/

def mockSeed (bhash : List String → Int) (texts : List String) : Int :=
  bhash texts % (2 ^ 32)

def mockRawVec (stream : Int → Nat → ℚ) (seed : Int) (i : Nat) : List ℚ :=
  (List.range 1536).map (fun j => stream seed (i * 1536 + j))

def get_embeddings_mock (stream : Int → Nat → ℚ) (bhash : List String → Int)
    (texts : List String) : List (List ℚ) :=
  (List.range texts.length).map (fun i => mockRawVec stream (mockSeed bhash texts) i)

def sameUnit (v w : List ℚ) : Prop :=
  ∃ c : ℚ, 0 < c ∧ w = v.map (fun x => c * x)

/-- A concrete admissible draw sequence (all values in `(0, 1/2]`, inside
`uniform(-1, 1)`'s range), used to instantiate the PRNG parameter. -/
def stream01 : Int → Nat → ℚ := fun _ n => 1 / (n + 2)

/-- A concrete instantiation of the batch-hash parameter. -/
def hashZ : List String → Int := fun _ => 0

/-! ## src/function_caller_api.py

`execute_function_call` (lines 20-70) tries five `re.match` templates in
order and raises HTTP 400 if none applies.  Each pattern is a concatenation of
literals and greedy one-or-more character classes and is anchored only at the
start (`re.match`), so trailing text after the pattern is accepted.  For the
first four patterns every class is disjoint from the character following it,
so greedy matching is simply "take the maximal run, then require the literal".
Pattern 5's class `[\w\s]+` overlaps its following literal `" department."`,
so it backtracks from the longest admissible capture (`deptTry`).  The
`arguments` field holds the association list that `json.dumps` serializes,
with JSON value types made explicit. -/

inductive JVal where
  | jint : Int → JVal
  | jstr : String → JVal
deriving DecidableEq

structure FunctionCallResponse where
  name : String
  arguments : List (String × JVal)
deriving DecidableEq

/-- Value of a matched `(\d+)` group. -/
def digitsToNat (ds : List Char) : Nat :=
  ds.foldl (fun a c => a * 10 + (c.toNat - 48)) 0

/-- Python regex `\w` (ASCII). -/
def wordChar (c : Char) : Bool := c.isAlpha || c.isDigit || c = '_'

/-- Python regex `\s` (ASCII). -/
def wsChar (c : Char) : Bool :=
  c = ' ' || c = '\t' || c = '\n' || c = '\x0b' || c = '\x0c' || c = '\r'

/-- Pattern 1, `What is the status of ticket (\d+)\?` (line 23). -/
def matchTicket (q : String) : Option Int :=
  let cs := q.data
  let lit := "What is the status of ticket ".data
  if lit.isPrefixOf cs then
    let rest := cs.drop lit.length
    let ds := rest.takeWhile Char.isDigit
    match ds, rest.drop ds.length with
    | _ :: _, '?' :: _ => some (Int.ofNat (digitsToNat ds))
    | _, _ => none
  else none

/-- Pattern 2, `Schedule a meeting on ([\d-]+) at ([\d:]+) in (Room \w+)\.`
(line 32). -/
def matchMeeting (q : String) : Option (String × String × String) :=
  let cs := q.data
  let lit := "Schedule a meeting on ".data
  if lit.isPrefixOf cs then
    let r1 := cs.drop lit.length
    let g1 := r1.takeWhile (fun c => c.isDigit || c = '-')
    let r2 := r1.drop g1.length
    match g1 with
    | [] => none
    | _ :: _ =>
      if " at ".data.isPrefixOf r2 then
        let r3 := r2.drop 4
        let g2 := r3.takeWhile (fun c => c.isDigit || c = ':')
        let r4 := r3.drop g2.length
        match g2 with
        | [] => none
        | _ :: _ =>
          if " in ".data.isPrefixOf r4 then
            let r5 := r4.drop 4
            if "Room ".data.isPrefixOf r5 then
              let g3 := (r5.drop 5).takeWhile wordChar
              match g3, (r5.drop 5).drop g3.length with
              | _ :: _, '.' :: _ =>
                some (String.mk g1, String.mk g2, String.mk ("Room ".data ++ g3))
              | _, _ => none
            else none
          else none
      else none
  else none

/-- Pattern 3, `Show my expense balance for employee (\d+)\.` (line 41). -/
def matchExpense (q : String) : Option Int :=
  let cs := q.data
  let lit := "Show my expense balance for employee ".data
  if lit.isPrefixOf cs then
    let rest := cs.drop lit.length
    let ds := rest.takeWhile Char.isDigit
    match ds, rest.drop ds.length with
    | _ :: _, '.' :: _ => some (Int.ofNat (digitsToNat ds))
    | _, _ => none
  else none

/-- Pattern 4, `Calculate performance bonus for employee (\d+) for (\d+)\.`
(line 50). -/
def matchBonus (q : String) : Option (Int × Int) :=
  let cs := q.data
  let lit := "Calculate performance bonus for employee ".data
  if lit.isPrefixOf cs then
    let r1 := cs.drop lit.length
    let d1 := r1.takeWhile Char.isDigit
    let r2 := r1.drop d1.length
    match d1 with
    | [] => none
    | _ :: _ =>
      if " for ".data.isPrefixOf r2 then
        let r3 := r2.drop 5
        let d2 := r3.takeWhile Char.isDigit
        match d2, r3.drop d2.length with
        | _ :: _, '.' :: _ =>
          some (Int.ofNat (digitsToNat d1), Int.ofNat (digitsToNat d2))
        | _, _ => none
      else none
  else none

/-- Greedy backtracking for `([\w\s]+) department\.`: try the capture lengths
from longest to shortest until the literal `" department."` follows. -/
def deptTry (cs : List Char) : Nat → Option (List Char)
  | 0 => none
  | k + 1 =>
    if " department.".data.isPrefixOf (cs.drop (k + 1)) then some (cs.take (k + 1))
    else deptTry cs k

/-- Pattern 5, `Report office issue (\d+) for the ([\w\s]+) department\.`
(line 60). -/
def matchIssue (q : String) : Option (Int × String) :=
  let cs := q.data
  let lit := "Report office issue ".data
  if lit.isPrefixOf cs then
    let r1 := cs.drop lit.length
    let ds := r1.takeWhile Char.isDigit
    match ds with
    | [] => none
    | _ :: _ =>
      let r2 := r1.drop ds.length
      if " for the ".data.isPrefixOf r2 then
        let r3 := r2.drop " for the ".data.length
        match deptTry r3 ((r3.takeWhile (fun c => wordChar c || wsChar c)).length) with
        | some dept => some (Int.ofNat (digitsToNat ds), String.mk dept)
        | none => none
      else none
  else none

/-- `execute_function_call` (lines 20-70): the five templates in source order,
first match wins; `HTTPException(status_code=400)` if none matches.  The error
side carries the HTTP status code. -/
def execute_function_call (q : String) : Except Nat FunctionCallResponse :=
  match matchTicket q with
  | some tid => .ok ⟨"get_ticket_status", [("ticket_id", .jint tid)]⟩
  | none =>
  match matchMeeting q with
  | some (d, t, r) =>
    .ok ⟨"schedule_meeting", [("date", .jstr d), ("time", .jstr t), ("meeting_room", .jstr r)]⟩
  | none =>
  match matchExpense q with
  | some eid => .ok ⟨"get_expense_balance", [("employee_id", .jint eid)]⟩
  | none =>
  match matchBonus q with
  | some (eid, yr) =>
    .ok ⟨"calculate_performance_bonus", [("employee_id", .jint eid), ("current_year", .jint yr)]⟩
  | none =>
  match matchIssue q with
  | some (code, dept) =>
    .ok ⟨"report_office_issue", [("issue_code", .jint code), ("department", .jstr dept)]⟩
  | none => .error 400

/-! ## Lemmas about the stable insertion sort -/

theorem insertS_perm (r : α → α → Bool) (x : α) (l : List α) :
    List.Perm (insertS r x l) (x :: l) := by
  induction l with
  | nil => simp [insertS]
  | cons y ys ih =>
    by_cases h : r x y = true
    · simp [insertS, h]
    · simp only [insertS, h, if_false, Bool.false_eq_true]
      exact ((ih.cons y).trans (List.Perm.swap x y ys))

theorem sortS_perm (r : α → α → Bool) (l : List α) :
    List.Perm (sortS r l) l := by
  induction l with
  | nil => simp [sortS]
  | cons x xs ih => exact (insertS_perm r x (sortS r xs)).trans (ih.cons x)

theorem mem_sortS {r : α → α → Bool} {l : List α} {a : α} :
    a ∈ sortS r l ↔ a ∈ l :=
  (sortS_perm r l).mem_iff

theorem length_sortS (r : α → α → Bool) (l : List α) :
    (sortS r l).length = l.length :=
  (sortS_perm r l).length_eq

/-- `insertS` preserves sortedness when `r` is total and transitive. -/
theorem pairwise_insertS (r : α → α → Bool)
    (htot : ∀ a b, r a b = true ∨ r b a = true)
    (htr : ∀ a b c, r a b = true → r b c = true → r a c = true)
    (x : α) (l : List α) (h : l.Pairwise (fun a b => r a b = true)) :
    (insertS r x l).Pairwise (fun a b => r a b = true) := by
  induction l with
  | nil => simp [insertS]
  | cons y ys ih =>
    rw [List.pairwise_cons] at h
    by_cases hxy : r x y = true
    · simp only [insertS, hxy, if_true, List.pairwise_cons]
      refine ⟨?_, ?_, h.2⟩
      · intro z hz
        rcases List.mem_cons.1 hz with rfl | hz
        · exact hxy
        · exact htr x y z hxy (h.1 z hz)
      · exact h.1
    · have hyx : r y x = true := (htot x y).resolve_left hxy
      simp only [insertS, hxy, if_false, Bool.false_eq_true, List.pairwise_cons]
      refine ⟨?_, ih h.2⟩
      intro z hz
      rcases List.mem_cons.1 ((insertS_perm r x ys).mem_iff.1 hz) with rfl | hz
      · exact hyx
      · exact h.1 z hz

/-- `sortS` sorts when `r` is total and transitive. -/
theorem pairwise_sortS (r : α → α → Bool)
    (htot : ∀ a b, r a b = true ∨ r b a = true)
    (htr : ∀ a b c, r a b = true → r b c = true → r a c = true)
    (l : List α) :
    (sortS r l).Pairwise (fun a b => r a b = true) := by
  induction l with
  | nil => simp [sortS]
  | cons x xs ih => exact pairwise_insertS r htot htr x (sortS r xs) ih

/-- Stability of `insertS`: inserting an element whose original position
precedes everything in `l` keeps ties (equal keys) in original order, provided
`r` never walks past an equal key (`hcom`). -/
theorem tie_insertS (r : α → α → Bool) (key : α → ℚ) (idx : α → Nat)
    (hcom : ∀ a b, r a b = false → key a ≠ key b)
    (x : α) (l : List α) (hlt : ∀ y ∈ l, idx x < idx y)
    (h : l.Pairwise (fun a b => key a = key b → idx a < idx b)) :
    (insertS r x l).Pairwise (fun a b => key a = key b → idx a < idx b) := by
  induction l with
  | nil => simp [insertS]
  | cons y ys ih =>
    rw [List.pairwise_cons] at h
    by_cases hxy : r x y = true
    · simp only [insertS, hxy, if_true, List.pairwise_cons]
      refine ⟨?_, ?_, h.2⟩
      · intro z hz _
        rcases List.mem_cons.1 hz with rfl | hz
        · exact hlt z (List.mem_cons_self z ys)
        · exact hlt z (List.mem_cons_of_mem y hz)
      · exact h.1
    · have hne : key x ≠ key y :=
        hcom x y (Bool.not_eq_true (r x y) ▸ hxy)
      simp only [insertS, hxy, if_false, Bool.false_eq_true, List.pairwise_cons]
      refine ⟨?_, ih (fun z hz => hlt z (List.mem_cons_of_mem y hz)) h.2⟩
      intro z hz
      rcases List.mem_cons.1 ((insertS_perm r x ys).mem_iff.1 hz) with rfl | hz
      · exact fun hk => absurd hk.symm hne
      · exact h.1 z hz

/-- Stability of `sortS`: on input whose `idx` keys are strictly increasing,
tied elements stay in ascending `idx` order. -/
theorem tie_sortS (r : α → α → Bool) (key : α → ℚ) (idx : α → Nat)
    (hcom : ∀ a b, r a b = false → key a ≠ key b)
    (l : List α) (hasc : l.Pairwise (fun a b => idx a < idx b)) :
    (sortS r l).Pairwise (fun a b => key a = key b → idx a < idx b) := by
  induction l with
  | nil => simp [sortS]
  | cons x xs ih =>
    rw [List.pairwise_cons] at hasc
    exact tie_insertS r key idx hcom x (sortS r xs)
      (fun y hy => hasc.1 y (mem_sortS.1 hy)) (ih hasc.2)

/-! ## Structural lemmas for the ad-hoc (similarity_api) ranking -/

theorem ascRel_total (a b : Nat × ℚ) : ascRel a b = true ∨ ascRel b a = true := by
  simp [ascRel]
  exact le_total a.2 b.2

theorem ascRel_trans (a b c : Nat × ℚ) :
    ascRel a b = true → ascRel b c = true → ascRel a c = true := by
  simp [ascRel]
  exact le_trans

theorem mem_argsortPairs {scores : List ℚ} {p : Nat × ℚ} (h : p ∈ argsortPairs scores) :
    scores[p.1]? = some p.2 :=
  List.mem_enum_iff_getElem?.1 (mem_sortS.1 h)

theorem argsortAsc_perm (scores : List ℚ) :
    List.Perm (argsortAsc scores) (List.range scores.length) := by
  have h2 := (sortS_perm ascRel scores.enum).map Prod.fst
  rw [List.enum_map_fst] at h2
  simpa [argsortAsc] using h2

theorem length_argsortAsc (scores : List ℚ) : (argsortAsc scores).length = scores.length :=
  (argsortAsc_perm scores).length_eq.trans (List.length_range _)

theorem top3Indices_eq (scores : List ℚ) :
    top3Indices scores = (top3Pairs scores).map (fun p => p.1) := by
  simp [top3Indices, top3Pairs, argsortAsc, List.map_reverse, List.map_drop, List.length_map]

theorem length_top3Indices (scores : List ℚ) :
    (top3Indices scores).length = min 3 scores.length := by
  simp only [top3Indices, List.length_reverse, List.length_drop, length_argsortAsc]
  omega

theorem nodup_top3Indices (scores : List ℚ) : (top3Indices scores).Nodup := by
  have h : (argsortAsc scores).Nodup :=
    (argsortAsc_perm scores).symm.nodup (List.nodup_range _)
  rw [top3Indices, List.nodup_reverse]
  exact (List.drop_sublist _ _).nodup h

theorem mem_top3Pairs {scores : List ℚ} {p : Nat × ℚ} (h : p ∈ top3Pairs scores) :
    p ∈ argsortPairs scores := by
  rw [top3Pairs, List.mem_reverse] at h
  exact (List.drop_sublist _ _).subset h

theorem mem_top3Indices_lt {scores : List ℚ} {i : Nat} (h : i ∈ top3Indices scores) :
    i < scores.length := by
  rw [top3Indices, List.mem_reverse] at h
  have h1 : i ∈ argsortAsc scores := (List.drop_sublist _ _).subset h
  exact List.mem_range.1 ((argsortAsc_perm scores).mem_iff.1 h1)

theorem sorted_top3Pairs (scores : List ℚ) :
    (top3Pairs scores).Pairwise (fun a b => b.2 ≤ a.2) := by
  have h2 : (argsortPairs scores).Pairwise (fun a b : Nat × ℚ => a.2 ≤ b.2) :=
    (pairwise_sortS ascRel ascRel_total ascRel_trans scores.enum).imp
      (fun hab => by simpa [ascRel] using hab)
  rw [top3Pairs, List.pairwise_reverse]
  exact h2.sublist (List.drop_sublist _ _)

theorem tie_argsortPairs (scores : List ℚ) :
    (argsortPairs scores).Pairwise (fun a b => a.2 = b.2 → a.1 < b.1) := by
  apply tie_sortS ascRel (fun p => p.2) (fun p => p.1) ?_ scores.enum ?_
  · intro a b hab
    have hn : ¬ (a.2 ≤ b.2) := by simpa [ascRel] using hab
    exact fun h => hn (le_of_eq h)
  · have h := List.pairwise_lt_range scores.length
    rw [← List.enum_map_fst] at h
    exact List.pairwise_map.1 h

theorem snd_of_mem_argsortPairs {n : Nat} {score : Nat → ℚ} {p : Nat × ℚ}
    (h : p ∈ argsortPairs ((List.range n).map score)) : p.2 = score p.1 := by
  have h2 := mem_argsortPairs h
  rw [List.getElem?_map] at h2
  rcases Nat.lt_or_ge p.1 n with hlt | hge
  · rw [List.getElem?_range hlt] at h2
    simpa using h2.symm
  · rw [List.getElem?_eq_none (by simpa using hge)] at h2
    simp at h2

/-! ## Structural lemmas for the fixed knowledge-base (rag_api) ranking -/

theorem pairwise_idx_ragTriples (score : Nat → ℚ) :
    (ragTriples score).Pairwise (fun a b => a.1 < b.1) := by
  have h : KNOWLEDGE_BASE.enum.Pairwise (fun a b => a.1 < b.1) := by
    have h0 := List.pairwise_lt_range KNOWLEDGE_BASE.length
    rw [← List.enum_map_fst] at h0
    exact List.pairwise_map.1 h0
  rw [ragTriples, List.pairwise_map]
  exact h

theorem ruleMatch_kb {q : String} {d : Doc} (h : ruleMatch q = some d) :
    d = kbDoc 0 ∨ d = kbDoc 1 := by
  simp only [ruleMatch] at h
  split at h
  · exact Or.inl (Option.some.inj h).symm
  · split at h
    · exact Or.inr (Option.some.inj h).symm
    · split at h
      · exact Or.inl (Option.some.inj h).symm
      · exact absurd h (by simp)

theorem headD_mem {l : List α} (h : l ≠ []) (d : α) : l.headD d ∈ l := by
  cases l with
  | nil => exact absurd rfl h
  | cons a t => simp

/-! ## Helper evaluation lemmas -/

theorem getD_map_range (f : Nat → β) {n i : Nat} (h : i < n) (d : β) :
    ((List.range n).map f).getD i d = f i := by
  simp [List.getD_eq_getElem?_getD, List.getElem?_map, List.getElem?_range h]

theorem getD_map_of_lt (f : α → β) {l : List α} {i : Nat} (h : i < l.length) (d : β) (d0 : α) :
    (l.map f).getD i d = f (l.getD i d0) := by
  simp [List.getD_eq_getElem?_getD, List.getElem?_map, List.getElem?_eq_getElem h]

theorem mockRawVec_getD (stream : Int → Nat → ℚ) (seed : Int) (i : Nat) {j : Nat}
    (h : j < 1536) :
    (mockRawVec stream seed i).getD j 0 = stream seed (i * 1536 + j) :=
  getD_map_range _ h _

theorem length_mockRawVec (stream : Int → Nat → ℚ) (seed : Int) (i : Nat) :
    (mockRawVec stream seed i).length = 1536 := by
  simp [mockRawVec]

/-! ## The claims -/

/-- C1, counterexample: in the ad-hoc top-3 deployment two documents with equal
scores come back as `[1, 0]` — descending original-index order, not the
ascending order the claim asserts for both deployments. -/
theorem C1_counterexample :
    top3Indices [(7 : ℚ), 7] = [1, 0] ∧
    ¬ List.Pairwise (fun a b : Nat => a < b) (top3Indices [(7 : ℚ), 7]) := by
  decide

/-- C1, amended: in the fixed knowledge-base deployment the stable descending
sort returns tied documents in ascending original-index order, while in the
ad-hoc top-3 deployment the `[-3:][::-1]` slice of the ascending argsort
returns tied documents in descending original-index order. -/
theorem C1_tie_order :
    (∀ score : Nat → ℚ,
      (ragSorted score).Pairwise (fun a b => a.2.1 = b.2.1 → a.1 < b.1)) ∧
    (∀ scores : List ℚ,
      (top3Pairs scores).Pairwise (fun a b => a.2 = b.2 → b.1 < a.1)) := by
  constructor
  · intro score
    apply tie_sortS descRel (fun t => t.2.1) (fun t => t.1) ?_ (ragTriples score)
      (pairwise_idx_ragTriples score)
    intro a b hab
    have hn : ¬ (b.2.1 ≤ a.2.1) := by simpa [descRel] using hab
    exact fun h => hn (le_of_eq h.symm)
  · intro scores
    have h2 := (tie_argsortPairs scores).sublist
      (List.drop_sublist ((argsortPairs scores).length - 3) _)
    rw [top3Pairs, List.pairwise_reverse]
    exact h2.imp (fun hab hk => hab hk.symm)

/-- C2, counterexample: with a zero first vector (equal lengths) the scorer
returns the float NaN value — no `ZeroVectorError` (the code raises nothing on
equal-length inputs). -/
theorem C2_counterexample :
    cosine_similarity [(0 : ℚ)] [(1 : ℚ)] = CosOutcome.nan := by
  simp [cosine_similarity, dotL]

/-- C2, amended: `cosine_similarity` checks nothing itself: whenever either
equal-length input is the zero vector it evaluates 0/0 and returns NaN instead
of failing with `ZeroVectorError`; only a length mismatch raises (numpy's
shape ValueError, not a `DimensionMismatch`). -/
theorem C2_nan_not_error :
    (∀ v1 v2 : List ℚ, v1.length = v2.length →
      (dotL v1 v1 = 0 ∨ dotL v2 v2 = 0) → cosine_similarity v1 v2 = .nan) ∧
    (∀ v1 v2 : List ℚ, v1.length ≠ v2.length → cosine_similarity v1 v2 = .shapeError) := by
  constructor
  · intro v1 v2 h hz
    unfold cosine_similarity
    rw [if_neg (by simp [h]), if_pos hz]
  · intro v1 v2 h
    unfold cosine_similarity
    rw [if_pos h]

/-- C2, witness for the amended claim at concrete inputs. -/
theorem C2_witness :
    cosine_similarity [(0 : ℚ), 0] [(1 : ℚ), 2] = CosOutcome.nan ∧
    cosine_similarity [(1 : ℚ)] [(1 : ℚ), 2] = CosOutcome.shapeError :=
  ⟨C2_nan_not_error.1 _ _ rfl (Or.inl (by simp [dotL])),
   C2_nan_not_error.2 _ _ (by decide)⟩

/-- C3, counterexample: in the ad-hoc deployment a 2-document corpus causes
3 provider invocations (one per document plus one for the query), not the
single batched invocation the claim asserts for every deployment. -/
theorem C3_counterexample :
    (get_similarity_calls ["a", "b"] "q").length = 3 ∧ (3 : Nat) ≠ 1 := by
  decide

/-- C3, amended: on rule-miss the fixed knowledge-base deployment calls the
provider exactly once with the batch `[query] + corpus contents`, but the
ad-hoc deployment calls it once per document plus once for the query —
`|corpus| + 1` singleton batches. -/
theorem C3_batching :
    (∀ (score : Nat → ℚ) (q : String), ruleMatch q = none →
      (search score q).2 = [q :: KNOWLEDGE_BASE.map (fun d => d.content)]) ∧
    (∀ (docs : List String) (q : String), docs ≠ [] → q ≠ "" →
      get_similarity_calls docs q = docs.map (fun d => [cleanText d]) ++ [[cleanText q]] ∧
      (get_similarity_calls docs q).length = docs.length + 1 ∧
      ∀ b ∈ get_similarity_calls docs q, b.length = 1) := by
  constructor
  · intro score q h
    simp [search, h]
  · intro docs q h1 h2
    have he : get_similarity_calls docs q =
        docs.map (fun d => [cleanText d]) ++ [[cleanText q]] := by
      simp [get_similarity_calls, h1, h2]
    refine ⟨he, ?_, ?_⟩
    · simp [he]
    · intro b hb
      rw [he] at hb
      rcases List.mem_append.1 hb with hb | hb
      · obtain ⟨d, _, rfl⟩ := List.mem_map.1 hb
        rfl
      · simp at hb
        subst hb
        rfl

/-- C3, witness for the amended claim at concrete inputs. -/
theorem C3_witness :
    (search (fun _ => (0 : ℚ)) "zzz").2 = ["zzz" :: KNOWLEDGE_BASE.map (fun d => d.content)] ∧
    (get_similarity_calls ["a"] "q").length = (["a"] : List String).length + 1 :=
  ⟨C3_batching.1 (fun _ => 0) "zzz" (by decide),
   (C3_batching.2 ["a"] "q" (by decide) (by decide)).2.1⟩

/-- C4, counterexample: the batch `["a", "a"]` holds the same text twice, yet
the two mock vectors are not positive scalar multiples of one another, so
their unit normalizations differ: a text's vector is not derived from that
text's own content (the PRNG stream and batch hash, unembeddable runtime
values, are instantiated by the admissible `stream01` and `hashZ`). -/
theorem C4_counterexample :
    (["a", "a"] : List String).getD 0 "" = (["a", "a"] : List String).getD 1 "" ∧
    ¬ sameUnit ((get_embeddings_mock stream01 hashZ ["a", "a"]).getD 0 [])
      ((get_embeddings_mock stream01 hashZ ["a", "a"]).getD 1 []) := by
  refine ⟨rfl, ?_⟩
  rintro ⟨c, hc, h⟩
  have e0 : (get_embeddings_mock stream01 hashZ ["a", "a"]).getD 0 [] =
      mockRawVec stream01 (mockSeed hashZ ["a", "a"]) 0 :=
    getD_map_range _ (by decide) _
  have e1 : (get_embeddings_mock stream01 hashZ ["a", "a"]).getD 1 [] =
      mockRawVec stream01 (mockSeed hashZ ["a", "a"]) 1 :=
    getD_map_range _ (by decide) _
  rw [e0, e1] at h
  have h0 := congrArg (fun v => v.getD 0 (0 : ℚ)) h
  have h1 := congrArg (fun v => v.getD 1 (0 : ℚ)) h
  simp only at h0 h1
  rw [mockRawVec_getD _ _ _ (by norm_num),
    getD_map_of_lt _ (by rw [length_mockRawVec]; norm_num) _ (0 : ℚ),
    mockRawVec_getD _ _ _ (by norm_num)] at h0
  rw [mockRawVec_getD _ _ _ (by norm_num),
    getD_map_of_lt _ (by rw [length_mockRawVec]; norm_num) _ (0 : ℚ),
    mockRawVec_getD _ _ _ (by norm_num)] at h1
  simp only [stream01] at h0 h1
  norm_num at h0 h1
  linarith

/-- C4, amended: the mock backend seeds the PRNG once from the entire batch
(`hash(str(texts))`), so the i-th vector depends only on that batch-wide seed
and the position i — not on the i-th text's content. -/
theorem C4_batch_seed (stream : Int → Nat → ℚ) (bhash : List String → Int)
    (t1 t2 : List String) (i : Nat)
    (hseed : mockSeed bhash t1 = mockSeed bhash t2)
    (h1 : i < t1.length) (h2 : i < t2.length) :
    (get_embeddings_mock stream bhash t1).getD i [] =
      (get_embeddings_mock stream bhash t2).getD i [] := by
  have e1 : (get_embeddings_mock stream bhash t1).getD i [] =
      mockRawVec stream (mockSeed bhash t1) i := getD_map_range _ h1 _
  have e2 : (get_embeddings_mock stream bhash t2).getD i [] =
      mockRawVec stream (mockSeed bhash t2) i := getD_map_range _ h2 _
  rw [e1, e2, hseed]

/-- C4, witness: two different single-text batches with the same batch hash
receive identical vectors — position and seed alone decide the output. -/
theorem C4_witness :
    (get_embeddings_mock stream01 hashZ ["a"]).getD 0 [] =
      (get_embeddings_mock stream01 hashZ ["b"]).getD 0 [] :=
  C4_batch_seed stream01 hashZ ["a"] ["b"] 0 rfl (by decide) (by decide)

/-- C5: a query matching a keyword rule short-circuits: `search` returns that
rule's bound document and sends no batch to the embedding provider; the
concrete fat-arrow query matches the first rule, whose document contains
"fat arrow" and carries source "TypeScript Book - Arrow Functions". -/
theorem C5_rule_shortcircuit :
    (∀ (score : Nat → ℚ) (q : String) (d : Doc), ruleMatch q = some d →
      search score q = ({ answer := d.content, sources := d.source }, [])) ∧
    ruleMatch "What does the author affectionately call the => syntax?" = some (kbDoc 0) ∧
    isSubstr "fat arrow" (kbDoc 0).content = true ∧
    (kbDoc 0).source = "TypeScript Book - Arrow Functions" := by
  refine ⟨?_, by decide, by decide, by decide⟩
  intro score q d h
  simp [search, h]

/-- C5, witness: the concrete fat-arrow query, under any score assignment,
returns the arrow-functions document with zero provider batches. -/
theorem C5_witness :
    search (fun _ => (0 : ℚ)) "What does the author affectionately call the => syntax?" =
      ({ answer := (kbDoc 0).content, sources := (kbDoc 0).source }, []) :=
  C5_rule_shortcircuit.1 (fun _ => 0) _ (kbDoc 0) (by decide)

/-- C6: for every non-empty corpus and non-empty query the ad-hoc deployment
returns `.ok` with the documents at index list `idxs`: of length
`min 3 |corpus|`, duplicate-free, all indices in range, sorted by
non-increasing similarity score. -/
theorem C6_ranked_list (docs : List String) (q : String) (score : Nat → ℚ)
    (h1 : docs ≠ []) (h2 : q ≠ "") :
    ∃ idxs : List Nat,
      get_similarity docs q score = .ok (idxs.map (fun i => docs.getD i "")) ∧
      idxs.length = min 3 docs.length ∧
      idxs.Nodup ∧
      (∀ i ∈ idxs, i < docs.length) ∧
      idxs.Pairwise (fun i j => score j ≤ score i) := by
  refine ⟨top3Indices ((List.range docs.length).map score), ?_, ?_, ?_, ?_, ?_⟩
  · unfold get_similarity
    rw [if_neg (by simp [h1, h2])]
  · rw [length_top3Indices]
    simp
  · exact nodup_top3Indices _
  · intro i hi
    have h := mem_top3Indices_lt hi
    simpa using h
  · rw [top3Indices_eq, List.pairwise_map]
    refine (sorted_top3Pairs _).imp_of_mem ?_
    intro a b ha hb hab
    rw [← snd_of_mem_argsortPairs (mem_top3Pairs ha),
      ← snd_of_mem_argsortPairs (mem_top3Pairs hb)]
    exact hab

/-- C6, witness at a concrete 4-document corpus with k = 3. -/
theorem C6_witness :
    ∃ idxs : List Nat,
      get_similarity ["a", "b", "c", "d"] "q" (fun i => (i : ℚ)) =
        .ok (idxs.map (fun i => (["a", "b", "c", "d"] : List String).getD i "")) ∧
      idxs.length = min 3 (["a", "b", "c", "d"] : List String).length ∧
      idxs.Nodup ∧
      (∀ i ∈ idxs, i < (["a", "b", "c", "d"] : List String).length) ∧
      idxs.Pairwise (fun i j : Nat => ((j : ℚ)) ≤ ((i : ℚ))) :=
  C6_ranked_list ["a", "b", "c", "d"] "q" (fun i => (i : ℚ)) (by decide) (by decide)

/-- C7: an empty corpus makes `get_similarity` fail with the HTTP 400 client
error rather than return an empty list, for every query and score
assignment. -/
theorem C7_empty_corpus (q : String) (score : Nat → ℚ) :
    get_similarity [] q score = .error 400 := by
  simp [get_similarity]

/-- C8: `execute_function_call` either resolves a template or fails with
status 400 — every error it produces is the 400 client error (never a server
fault), and when all five templates miss it is exactly `.error 400`, never a
structured resolution. -/
theorem C8_no_template (q : String) :
    (∀ e, execute_function_call q = .error e → e = 400) ∧
    (matchTicket q = none → matchMeeting q = none → matchExpense q = none →
     matchBonus q = none → matchIssue q = none →
     execute_function_call q = .error 400) := by
  constructor
  · intro e he
    unfold execute_function_call at he
    cases h1 : matchTicket q <;> rw [h1] at he
    · cases h2 : matchMeeting q <;> rw [h2] at he
      · cases h3 : matchExpense q <;> rw [h3] at he
        · cases h4 : matchBonus q <;> rw [h4] at he
          · cases h5 : matchIssue q <;> rw [h5] at he
            · exact (Except.error.inj he).symm
            · simp at he
          · simp at he
        · simp at he
      · simp at he
    · simp at he
  · intro hn1 hn2 hn3 hn4 hn5
    unfold execute_function_call
    rw [hn1, hn2, hn3, hn4, hn5]

/-- C8, witness: a query matching no template gets exactly the 400 error. -/
theorem C8_witness : execute_function_call "hello" = .error 400 :=
  (C8_no_template "hello").2 rfl rfl rfl rfl rfl

/-- C9: the ticket query resolves through template extraction to
`get_ticket_status` with `ticket_id` the integer 482. -/
theorem C9_ticket_482 :
    execute_function_call "What is the status of ticket 482?" =
      .ok ⟨"get_ticket_status", [("ticket_id", JVal.jint 482)]⟩ := rfl

/-- C10: for every query and score assignment, the fixed knowledge-base
response is verbatim one of the five hardcoded documents: its answer is that
document's content and its sources that document's source. -/
theorem C10_verbatim (score : Nat → ℚ) (q : String) :
    ∃ d ∈ KNOWLEDGE_BASE,
      (search score q).1.answer = d.content ∧ (search score q).1.sources = d.source := by
  cases hr : ruleMatch q with
  | some d =>
    rcases ruleMatch_kb hr with rfl | rfl
    · exact ⟨kbDoc 0, List.mem_cons_self _ _, by simp [search, hr], by simp [search, hr]⟩
    · exact ⟨kbDoc 1, List.mem_cons_of_mem _ (List.mem_cons_self _ _),
        by simp [search, hr], by simp [search, hr]⟩
  | none =>
    have hlen : (ragSorted score).length = 5 := by
      simp [ragSorted, length_sortS, ragTriples, KNOWLEDGE_BASE]
    have hne : ragSorted score ≠ [] := by
      intro h0
      rw [h0] at hlen
      simp at hlen
    have hmem2 : (ragSorted score).headD (0, 0, ⟨"", ""⟩) ∈ ragTriples score :=
      mem_sortS.1 (headD_mem hne _)
    obtain ⟨p, hp, heq⟩ := List.mem_map.1 hmem2
    refine ⟨((ragSorted score).headD (0, 0, ⟨"", ""⟩)).2.2, ?_, ?_, ?_⟩
    · rw [← heq]
      exact List.snd_mem_of_mem_enum hp
    · simp [search, hr]
    · simp [search, hr]

end DevSync
